import Mathlib

/-!
Verification of `src/libcore/cast.rs` (unsafe casting primitives).

The embedding is byte-level: a typed value is its byte representation (a
list of bytes), a raw memory is a flat byte-addressed list, and a shared
reference-counted cell is a small state record (count, freed flag, number
of free events, use-after-free flag).  The compiler intrinsics that the
module forwards to (`rusti::forget`, `rusti::reinterpret_cast`,
`rusti::transmute`, `unstable::intrinsics::init`,
`unstable::intrinsics::memmove64`, `sys::size_of`) and the runtime glue
for `@`-boxes (take glue on copying a handle, drop glue on destroying
one) are not part of this module; they are modelled from the spec, each
with a doc comment saying so.  Everything else is translated directly
from the source.
-/

/-- A byte is a natural number; byte values of interest are below 256. -/
abbrev Byte := Nat

/-- The byte representation of a typed value. -/
abbrev Bytes := List Byte

/-- A flat, byte-addressed memory. -/
abbrev Mem := List Byte

/-- Read the byte at address `a`; out-of-range reads give 0. -/
def readByte (m : Mem) (a : Nat) : Byte := m.getD a 0

/-- Read `n` consecutive bytes starting at address `a`. -/
def readBytes (m : Mem) (a n : Nat) : Bytes :=
  (List.range n).map fun i => readByte m (a + i)

namespace sys

/-- Modelled from the spec: `sys::size_of` is the byte length of a value
representation; the region's byte length is the size of its type. -/
def size_of (b : Bytes) : Nat := b.length

end sys

namespace rusti

/-- Modelled from the spec: the `rusti::forget` intrinsic (declared at
cast.rs lines 16–29, defined by the compiler) takes ownership of a value
and neglects to run any required cleanup on it: whatever destruction
logic the value carries, the external world is left unchanged. -/
def forget {σ : Type} (cleanup : σ → σ) (s : σ) : σ := s

/-- Modelled from the spec: the `rusti::reinterpret_cast` intrinsic
(stage0) reassigns the type lens over identical bytes — it does not
resize, pad, or convert, so on byte representations it is the identity. -/
def reinterpret_cast (e : Bytes) : Bytes := e

/-- Modelled from the spec: the `rusti::transmute` intrinsic (stage1 and
later) reinterprets the exact same bytes as the destination type,
consuming the source binding without running its cleanup: on byte
representations it is the identity. -/
def transmute (e : Bytes) : Bytes := e

end rusti

namespace unstable
namespace intrinsics

/-- Modelled from the spec: `unstable::intrinsics::init` produces a
freshly initialized value of the requested size (all-zero bytes). -/
def init (n : Nat) : Bytes := List.replicate n 0

/-- Modelled from the spec: `unstable::intrinsics::memmove64 dest src n`
copies `n` bytes from address `src` to address `dest` in a flat memory,
reading the source bytes as they were before the call (memmove
semantics). -/
def memmove64 (m : Mem) (dest src : Nat) : Nat → Mem
  | 0 => m
  | Nat.succ k => (memmove64 m dest src k).set (dest + k) (readByte m (src + k))

end intrinsics
end unstable

/-- The state of one shared reference-counted `@`-box cell: its reference
count, whether its storage has been freed, how many free events have
happened, and whether a handle was ever destroyed after the cell was
already freed (a use-after-free / double-free). -/
structure BoxState where
  count : Nat
  freed : Bool
  freeEvents : Nat
  uafError : Bool
  deriving DecidableEq

/-- Modelled from the spec: take glue for a shared box — copying an owned
`@`-handle (as happens when the handle is passed by value into a call)
increments the reference count of the cell by one. -/
def takeHandle (s : BoxState) : BoxState := { s with count := s.count + 1 }

/-- Modelled from the spec: drop glue for a shared box — destroying a
handle decrements the count, and when the count reaches zero the cell is
freed; destroying a handle after the cell was freed is a use-after-free. -/
def dropHandle (s : BoxState) : BoxState :=
  if s.freed then { s with uafError := true }
  else if s.count ≤ 1 then
    { count := 0, freed := true, freeEvents := s.freeEvents + 1,
      uafError := s.uafError }
  else { s with count := s.count - 1 }

/-- `reinterpret_cast` (cast.rs 32–37, stage0): forwards to the intrinsic
on the bytes at `src`. -/
def reinterpret_cast (src : Bytes) : Bytes := rusti.reinterpret_cast src

/-- `forget` (cast.rs 63–72): forwards to the `rusti.forget` intrinsic.
The value is described by the cleanup its destruction logic would apply
to an external state of type `σ`. -/
def forget {σ : Type} (cleanup : σ → σ) (s : σ) : σ := rusti.forget cleanup s

/-- Modelled from the spec: normal destruction of an owned value runs its
destruction logic against the external state (drop glue). -/
def dropValue {σ : Type} (cleanup : σ → σ) (s : σ) : σ := cleanup s

/-- `transmute_copy` (cast.rs 47–61, stage1 and later) over a flat byte
memory: a fresh destination of `u = size_of U` bytes is initialized with
`init` at the end of memory, `dest_ptr` and `src_ptr` are its address and
the referent's address, and `memmove64` copies `size_of U` bytes from
source to destination; the value read back from the destination is
returned together with the final memory. -/
def transmute_copy (m : Mem) (src_ptr u : Nat) : Bytes × Mem :=
  let dest_ptr : Nat := m.length
  let m1 : Mem := m ++ unstable.intrinsics.init u
  let m2 : Mem := unstable.intrinsics.memmove64 m1 dest_ptr src_ptr u
  (readBytes m2 dest_ptr u, m2)

/-- Modelled from the spec: the effect of `transmute_copy` on the box
state of the cell its source handle points to — the body (cast.rs 51–60)
is a raw byte copy containing no forget and no drop, and a copy of raw
pointer bytes runs no take glue, so the box state is unchanged. -/
def transmute_copy_world (s : BoxState) : BoxState := s

/-- `bump_box_refcount` (cast.rs 74–80): the body only forgets the
handle, whose cleanup would be the drop glue of the cell. -/
def bump_box_refcount (s : BoxState) : BoxState := forget dropHandle s

/-- Modelled from the spec: a call `bump_box_refcount(t)` — passing the
`@`-handle by value copies it, running take glue on the cell, and then
the body runs. -/
def call_bump_box_refcount (s : BoxState) : BoxState :=
  bump_box_refcount (takeHandle s)

/-- `transmute` (cast.rs 98–104, stage1 and later): forwards to the
intrinsic. -/
def transmute (thing : Bytes) : Bytes := rusti.transmute thing

/-- `transmute` (cast.rs 90–96, stage0) with an explicit external state:
the bytes are reinterpreted via `reinterpret_cast`, then the source value
is passed to `forget` together with its cleanup. -/
def transmute_stage0_run (thing : Bytes) (cleanup : Nat → Nat) (ext : Nat) :
    Bytes × Nat :=
  let newthing : Bytes := reinterpret_cast thing
  (newthing, forget cleanup ext)

/-- `transmute` (cast.rs 98–104, stage1 and later) with an explicit
external state: the intrinsic consumes the source binding without running
its cleanup, so the external state is unchanged. -/
def transmute_run (thing : Bytes) (cleanup : Nat → Nat) (ext : Nat) :
    Bytes × Nat :=
  (rusti.transmute thing, ext)

/-- Modelled from the spec: the effect of moving an owned `@`-handle into
`transmute` on the box state — the intrinsic consumes the binding and
runs no drop glue, and a move is not a copy, so the count is unchanged
(the test comment at cast.rs line 180 records the refcount unchanged). -/
def transmute_world (s : BoxState) : BoxState := s

/-- `transmute_mut` (cast.rs 106–108): `transmute` of the reference
value. -/
def transmute_mut (ptr : Bytes) : Bytes := transmute ptr

/-- `transmute_immut` (cast.rs 110–114): `transmute` of the reference
value. -/
def transmute_immut (ptr : Bytes) : Bytes := transmute ptr

/-- `transmute_region` (cast.rs 116–120): `transmute` of the reference
value. -/
def transmute_region (ptr : Bytes) : Bytes := transmute ptr

/-- `transmute_mut_unsafe` (cast.rs 122–126): `transmute` of the raw
pointer value. -/
def transmute_mut_unsafe (ptr : Bytes) : Bytes := transmute ptr

/-- `transmute_immut_unsafe` (cast.rs 128–132): `transmute` of the raw
pointer value. -/
def transmute_immut_unsafe (ptr : Bytes) : Bytes := transmute ptr

/-- `transmute_mut_region` (cast.rs 134–138): `transmute` of the
reference value. -/
def transmute_mut_region (ptr : Bytes) : Bytes := transmute ptr

/-- `copy_lifetime` (cast.rs 140–144): `transmute_region` of the second
reference; the anchor is ignored except for its statically tracked
lifetime. -/
def copy_lifetime (_ptr ptr : Bytes) : Bytes := transmute_region ptr

/-- `copy_lifetime_vec` (cast.rs 146–150): `transmute_region` of the
second reference; the anchor is ignored except for its lifetime. -/
def copy_lifetime_vec (_ptr ptr : Bytes) : Bytes := transmute_region ptr

/-- The address a pointer value denotes: little-endian byte decoding of
its representation. -/
def ptrAddr (p : Bytes) : Nat := p.foldr (fun b acc => b + 256 * acc) 0

/-- Modelled from the spec: the 2-byte in-memory encoding of a
one-character string value — the low byte of the character code followed
by the zero terminator byte laid out by the source string type. -/
def encodeStr1 (c : Char) : Bytes := [c.toNat % 256, 0]

/-- `tests::test_bump_box_refcount` (cast.rs 176–188) as a box-state
trace: bump the refcount of a cell, move the handle into `transmute` to
obtain a raw pointer, manufacture two independent handles from the raw
pointer via `transmute_copy`, and destroy both manufactured handles at
end of scope. -/
def test_bump_box_refcount (s : BoxState) : BoxState :=
  dropHandle (dropHandle (transmute_copy_world (transmute_copy_world
    (transmute_world (call_bump_box_refcount s)))))

/-- A freshly created shared cell: count 1, not freed, no free events. -/
def initialBox : BoxState :=
  { count := 1, freed := false, freeEvents := 0, uafError := false }

theorem readByte_set_of_ne (m : Mem) (i j b : Nat) (h : i ≠ j) :
    readByte (m.set i b) j = readByte m j := by
  simp [readByte, List.getElem?_set_ne h]

theorem readByte_set_self (m : Mem) (i b : Nat) (h : i < m.length) :
    readByte (m.set i b) i = b := by
  simp [readByte, List.getElem?_set_eq_of_lt b h]

theorem length_memmove64 (m : Mem) (d s n : Nat) :
    (unstable.intrinsics.memmove64 m d s n).length = m.length := by
  induction n with
  | zero => rfl
  | succ k ih => simp [unstable.intrinsics.memmove64, ih]

theorem readByte_memmove64_of_lt (m : Mem) (d s n i : Nat) (h : i < d) :
    readByte (unstable.intrinsics.memmove64 m d s n) i = readByte m i := by
  induction n with
  | zero => rfl
  | succ k ih =>
    have hne : d + k ≠ i := by omega
    show readByte ((unstable.intrinsics.memmove64 m d s k).set (d + k)
      (readByte m (s + k))) i = readByte m i
    rw [readByte_set_of_ne _ _ _ _ hne, ih]

theorem readByte_memmove64_hit (m : Mem) (d s n j : Nat) (hj : j < n)
    (hd : d + j < m.length) :
    readByte (unstable.intrinsics.memmove64 m d s n) (d + j) = readByte m (s + j) := by
  induction n with
  | zero => exact absurd hj (Nat.not_lt_zero j)
  | succ k ih =>
    show readByte ((unstable.intrinsics.memmove64 m d s k).set (d + k)
      (readByte m (s + k))) (d + j) = readByte m (s + j)
    by_cases hjk : j = k
    · subst hjk
      rw [readByte_set_self]
      rw [length_memmove64]
      exact hd
    · have hlt : j < k := Nat.lt_of_le_of_ne (Nat.le_of_lt_succ hj) hjk
      have hne : d + k ≠ d + j := by omega
      rw [readByte_set_of_ne _ _ _ _ hne, ih hlt]

theorem readByte_append_init (m : Mem) (u i : Nat) :
    readByte (m ++ unstable.intrinsics.init u) i = readByte m i := by
  by_cases h : i < m.length
  · simp [readByte, unstable.intrinsics.init, List.getElem?_append_left h]
  · have h1 : m[i]? = none := List.getElem?_eq_none (Nat.le_of_not_lt h)
    have h2 : (m ++ List.replicate u 0)[i]? = (List.replicate u 0)[i - m.length]? :=
      List.getElem?_append_right (Nat.le_of_not_lt h)
    simp only [readByte, unstable.intrinsics.init, List.getD_eq_getElem?_getD, h1, h2,
      List.getElem?_replicate]
    split <;> rfl

theorem transmute_copy_fst (m : Mem) (a u : Nat) :
    (transmute_copy m a u).fst = readBytes m a u := by
  show readBytes (unstable.intrinsics.memmove64 (m ++ unstable.intrinsics.init u)
    m.length a u) m.length u = readBytes m a u
  unfold readBytes
  apply List.map_congr_left
  intro i hi
  have hiu : i < u := List.mem_range.mp hi
  have h1 : m.length + i < (m ++ unstable.intrinsics.init u).length := by
    simp [unstable.intrinsics.init]
    omega
  rw [readByte_memmove64_hit _ _ _ _ _ hiu h1]
  exact readByte_append_init m u (a + i)

theorem transmute_copy_snd (m : Mem) (a u i : Nat) (hi : i < m.length) :
    readByte (transmute_copy m a u).snd i = readByte m i := by
  show readByte (unstable.intrinsics.memmove64 (m ++ unstable.intrinsics.init u)
    m.length a u) i = readByte m i
  rw [readByte_memmove64_of_lt _ _ _ _ _ hi]
  exact readByte_append_init m u i

/-- C1: for every pair of types L and G with size_of L = size_of G and every
value x of type L, transmuting x to G and transmuting the result back to L
yields exactly the original byte pattern of x. -/
theorem transmute_size_eq_roundtrip (sL sG : Nat) (x : Bytes)
    (hx : sys.size_of x = sL) (h : sL = sG) :
    transmute (transmute x) = x := rfl

/-- Witness for C1 at a concrete 2-byte value. -/
theorem transmute_size_eq_roundtrip_witness :
    sys.size_of [76, 0] = 2 ∧ transmute (transmute [76, 0]) = [76, 0] :=
  ⟨rfl, transmute_size_eq_roundtrip 2 2 [76, 0] rfl rfl⟩

/-- C2: calling bump_box_refcount on an owned handle increments the count of
the cell by exactly one and discards the handle without running its cleanup:
the cell is not freed, no free event occurs, and no error arises, so the cell
has exactly one more outstanding claim than before the call. -/
theorem call_bump_box_refcount_increments (s : BoxState) :
    (call_bump_box_refcount s).count = s.count + 1 ∧
    (call_bump_box_refcount s).freed = s.freed ∧
    (call_bump_box_refcount s).freeEvents = s.freeEvents ∧
    (call_bump_box_refcount s).uafError = s.uafError :=
  ⟨rfl, rfl, rfl, rfl⟩

/-- C3: starting from a cell with count 1, the test sequence — bump the
refcount, move the handle into transmute, manufacture two handles via
transmute_copy, destroy both — ends in exactly the state reached by
destroying one original handle: count 0, freed exactly once, and no
use-after-free. -/
theorem test_bump_box_refcount_refcount_symmetry :
    test_bump_box_refcount initialBox = dropHandle initialBox ∧
    (test_bump_box_refcount initialBox).count = 0 ∧
    (test_bump_box_refcount initialBox).freeEvents = 1 ∧
    (test_bump_box_refcount initialBox).uafError = false := by
  refine ⟨?_, ?_, ?_, ?_⟩ <;> decide

/-- C4: with size_of U at most size_of T and the source region valid in
memory, transmute_copy returns exactly the first size_of U bytes located at
the referent address, the copy length is the destination size, and the
result depends only on the first size_of U bytes of the source, so no byte
beyond offset size_of U of the source is read. -/
theorem transmute_copy_copies_dest_size (m : Mem) (a u t : Nat)
    (hu : u ≤ t) (ht : a + t ≤ m.length) :
    (transmute_copy m a u).fst = readBytes m a u ∧
    ((transmute_copy m a u).fst).length = u ∧
    (∀ m2 a2, (∀ j, j < u → readByte m2 (a2 + j) = readByte m (a + j)) →
      (transmute_copy m2 a2 u).fst = (transmute_copy m a u).fst) := by
  refine ⟨transmute_copy_fst m a u, ?_, ?_⟩
  · rw [transmute_copy_fst]
    simp [readBytes]
  · intro m2 a2 hagree
    rw [transmute_copy_fst, transmute_copy_fst]
    unfold readBytes
    apply List.map_congr_left
    intro j hj
    exact hagree j (List.mem_range.mp hj)

/-- Witness for C4 at a concrete memory. -/
theorem transmute_copy_copies_dest_size_witness :
    2 ≤ 3 ∧ (transmute_copy [9, 1, 2, 3] 1 2).fst = readBytes [9, 1, 2, 3] 1 2 :=
  ⟨by decide,
    (transmute_copy_copies_dest_size [9, 1, 2, 3] 1 2 3 (by decide) (by decide)).1⟩

/-- C5: transmute_copy neither mutates nor moves its source: every byte of
the pre-existing memory is unchanged by the call, the box state attached to
the source value is unchanged, and dropping the source afterwards has
exactly the effect it would have had before the call. -/
theorem transmute_copy_preserves_source (s : BoxState) (m : Mem) (a u i : Nat)
    (hi : i < m.length) :
    readByte (transmute_copy m a u).snd i = readByte m i ∧
    transmute_copy_world s = s ∧
    dropHandle (transmute_copy_world s) = dropHandle s :=
  ⟨transmute_copy_snd m a u i hi, rfl, rfl⟩

/-- Witness for C5 at a concrete memory. -/
theorem transmute_copy_preserves_source_witness :
    0 < List.length [1, 2, 3] ∧
    readByte (transmute_copy [1, 2, 3] 0 2).snd 0 = readByte [1, 2, 3] 0 :=
  ⟨by decide,
    (transmute_copy_preserves_source initialBox [1, 2, 3] 0 2 0 (by decide)).1⟩

/-- C6: forget consumes a value whose destruction logic has an observable
side effect on an external state without triggering that side effect — the
external state is unchanged — whereas a normal drop applies the cleanup. -/
theorem forget_suppresses_cleanup (cleanup : Nat → Nat) (ext : Nat) :
    forget cleanup ext = ext ∧ dropValue cleanup ext = cleanup ext :=
  ⟨rfl, rfl⟩

/-- C7: for equally sized L and G, transmute (stage1 and later) yields a
value with the same bytes as the source, leaves the external state of the
source destructor unchanged, and agrees exactly with the stage0 body, a raw
reinterpretation composed with forget. -/
theorem transmute_equiv_reinterpret_forget (thing : Bytes)
    (cleanup : Nat → Nat) (ext sL sG : Nat)
    (hx : sys.size_of thing = sL) (h : sL = sG) :
    transmute_run thing cleanup ext = transmute_stage0_run thing cleanup ext ∧
    (transmute_run thing cleanup ext).fst = thing ∧
    (transmute_run thing cleanup ext).snd = ext :=
  ⟨rfl, rfl, rfl⟩

/-- Witness for C7 at a concrete value and cleanup. -/
theorem transmute_equiv_reinterpret_forget_witness :
    sys.size_of [5, 6] = 2 ∧
    transmute_run [5, 6] Nat.succ 0 = transmute_stage0_run [5, 6] Nat.succ 0 :=
  ⟨rfl, (transmute_equiv_reinterpret_forget [5, 6] Nat.succ 0 2 2 rfl rfl).1⟩

/-- C8: every view coercion returns a reference or pointer with the very
same byte representation, hence aliasing the same address as its input, and
a read through the returned view observes the same bytes as a read through
the original. -/
theorem view_coercions_identity_on_bytes (p q : Bytes) (m : Mem) (n : Nat) :
    (transmute_mut p = p ∧ transmute_immut p = p ∧ transmute_region p = p ∧
      transmute_mut_unsafe p = p ∧ transmute_immut_unsafe p = p ∧
      transmute_mut_region p = p ∧ copy_lifetime q p = p ∧
      copy_lifetime_vec q p = p) ∧
    (readBytes m (ptrAddr (transmute_mut p)) n = readBytes m (ptrAddr p) n ∧
      readBytes m (ptrAddr (transmute_immut p)) n = readBytes m (ptrAddr p) n ∧
      readBytes m (ptrAddr (transmute_region p)) n = readBytes m (ptrAddr p) n ∧
      readBytes m (ptrAddr ( transmute_mut_unsafe p)) n
        = readBytes m (ptrAddr p) n ∧
      readBytes m (ptrAddr ( transmute_immut_unsafe p)) n
        = readBytes m (ptrAddr p) n ∧
      readBytes m (ptrAddr (transmute_mut_region p)) n
        = readBytes m (ptrAddr p) n ∧
      readBytes m (ptrAddr (copy_lifetime q p)) n = readBytes m (ptrAddr p) n ∧
      readBytes m (ptrAddr (copy_lifetime_vec q p)) n
        = readBytes m (ptrAddr p) n) :=
  ⟨⟨rfl, rfl, rfl, rfl, rfl, rfl, rfl, rfl⟩,
    ⟨rfl, rfl, rfl, rfl, rfl, rfl, rfl, rfl⟩⟩

/-- C9: transmuting the 2-byte in-memory encoding of the one-character
string value L as a 2-element byte sequence yields exactly the bytes 76 and
0 — the low byte of the character code followed by the terminator byte. -/
theorem transmute_str_L_bytes : transmute (encodeStr1 'L') = [76, 0] := by
  decide

/-- C10: the body of bump_box_refcount performs no arithmetic on the count
at all — it is exactly forget applied to the handle — so the net increment
of a call comes solely from the take glue run when the argument is copied. -/
theorem bump_box_refcount_defeq_forget (s : BoxState) :
    bump_box_refcount s = forget dropHandle s ∧
    call_bump_box_refcount s = takeHandle s :=
  ⟨rfl, rfl⟩
